import Mathlib

/-!
Verification development for the ComfyCompactTools job-orchestration server
(`src/server/db.py`, `src/server/events.py`, `src/server/main.py`).

The Python source is shallowly embedded: SQLite rows become Lean structures,
the database becomes a pure `Store` threaded through the operations, the
websocket event-consumer loop becomes a step function over event lists, and
network calls (ComfyUI history / image downloads / prompt submission) become
explicit parameters describing their outcomes.  Timestamps are opaque strings
supplied by the caller (`utc_now_iso` in the source); JSON values are modelled
by the inductive `Val`.
-/

namespace Cockpit

/-- A JSON-ish Python value as it appears in decoded request/response
dictionaries.  `vNull` models Python `None` (JSON `null`). -/
inductive Val where
  | vNull : Val
  | vStr : String → Val
  | vInt : Int → Val
  | vRat : Rat → Val
  | vBool : Bool → Val
  deriving DecidableEq

/-- Python truthiness of a `Val` (`bool(x)`): `None`, `""`, `0` and `False`
are falsy. -/
def pyTruthy : Val → Bool
  | Val.vNull => false
  | Val.vStr s => s ≠ ""
  | Val.vInt n => n ≠ 0
  | Val.vRat q => q ≠ 0
  | Val.vBool b => b

/-- Python `str(x)` on a `Val`. -/
def pyStr : Val → String
  | Val.vNull => "None"
  | Val.vStr s => s
  | Val.vInt n => toString n
  | Val.vRat q => toString q
  | Val.vBool b => if b then "True" else "False"

/-- Python `str.strip()`: drop leading and trailing whitespace.  (Defined over
the character list so that it evaluates by kernel reduction; `String.trim`
is observably the same operation but does not reduce.) -/
def pyStrip (s : String) : String :=
  ⟨((s.data.dropWhile Char.isWhitespace).reverse.dropWhile Char.isWhitespace).reverse⟩

/-- Python dict assignment `d[k] = v`: any earlier binding of `k` is replaced. -/
def dictInsert (d : List (String × Val)) (k : String) (v : Val) : List (String × Val) :=
  (d.filter (fun p => p.1 ≠ k)) ++ [(k, v)]

/-- A row of the `jobs` table (`JobRow` in `db.py`).  `params_json` is kept in
decoded form as an association list; `progress_value`/`progress_max` are SQLite
REALs, modelled as rationals; `harvested` is the 0/1 INTEGER flag. -/
structure JobRow where
  id : String
  engine : String
  status : String
  prompt_id : Option String
  prompt : String
  negative_prompt : String
  params : List (String × Val)
  created_at : String
  updated_at : String
  progress_value : Rat
  progress_max : Rat
  harvested : Int
  error : Option String
  deriving DecidableEq

/-- The recipe snapshot stored (as `recipe_json`) on an asset created by
`harvest_assets_for_prompt`: a copy of the owning job's prompt data. -/
structure Recipe where
  engine : String
  prompt : String
  negative_prompt : String
  params : List (String × Val)
  deriving DecidableEq

/-- A row of the `assets` table (`AssetRow` in `db.py`), with `recipe_json`
and `meta_json` kept in decoded form. -/
structure AssetRow where
  id : String
  job_id : String
  engine : String
  filename : String
  created_at : String
  favorite : Int
  recipe : Recipe
  meta : List (String × Val)
  deriving DecidableEq

/-- The persistent state of `Database` (`db.py`): the `jobs` and `assets`
tables in insertion order (SQLite rowid order, which is what unordered
`SELECT ... WHERE id = ?` / `fetchone` traverses). -/
structure Store where
  jobs : List JobRow
  assets : List AssetRow
  deriving DecidableEq

/-- `Database.create_job`: INSERT a fresh row with the given fields,
`progress 0/0`, `harvested 0`, `error NULL`, both timestamps set to `now`. -/
def Store.create_job (s : Store) (job_id engine status prompt negative_prompt : String)
    (params : List (String × Val)) (prompt_id : Option String) (now : String) : Store :=
  { s with jobs := s.jobs ++
      [⟨job_id, engine, status, prompt_id, prompt, negative_prompt, params,
        now, now, 0, 0, 0, none⟩] }

/-- The keyword arguments of `Database.update_job`; `none` means the argument
was not provided (Python `None`), so the column is left untouched. -/
structure JobUpdate where
  status : Option String := none
  prompt_id : Option String := none
  progress_value : Option Rat := none
  progress_max : Option Rat := none
  error : Option String := none
  harvested : Option Int := none
  deriving DecidableEq

/-- `update_job`'s `if not fields` test: true when every argument is `None`. -/
def JobUpdate.isEmpty (u : JobUpdate) : Bool :=
  u.status.isNone && u.prompt_id.isNone && u.progress_value.isNone &&
    u.progress_max.isNone && u.error.isNone && u.harvested.isNone

/-- Effect of the generated `UPDATE jobs SET ...` statement on one matching
row: each provided column is overwritten, `updated_at` is set to `now`, every
other column keeps its value. -/
def applyJobUpdate (u : JobUpdate) (now : String) (r : JobRow) : JobRow :=
  { r with
    status := u.status.getD r.status
    prompt_id := match u.prompt_id with | some p => some p | none => r.prompt_id
    progress_value := u.progress_value.getD r.progress_value
    progress_max := u.progress_max.getD r.progress_max
    error := match u.error with | some e => some e | none => r.error
    harvested := u.harvested.getD r.harvested
    updated_at := now }

/-- `Database.update_job`: returns immediately when no field is provided,
otherwise updates every row whose `id` matches (`WHERE id = ?`). -/
def Store.update_job (s : Store) (job_id : String) (u : JobUpdate) (now : String) : Store :=
  if u.isEmpty then s
  else { s with jobs := s.jobs.map (fun r => if r.id = job_id then applyJobUpdate u now r else r) }

/-- `Database.get_job`: `SELECT * FROM jobs WHERE id = ?` + `fetchone`. -/
def Store.get_job (s : Store) (job_id : String) : Option JobRow :=
  s.jobs.find? (fun r => r.id = job_id)

/-- `Database.get_job_by_prompt_id`. -/
def Store.get_job_by_prompt_id (s : Store) (prompt_id : String) : Option JobRow :=
  s.jobs.find? (fun r => r.prompt_id = some prompt_id)

/-- `Database.create_asset` (favorite defaults to 0 in the INSERT; the embedded
row is expected to carry that default). -/
def Store.create_asset (s : Store) (row : AssetRow) : Store :=
  { s with assets := s.assets ++ [row] }

/-- `Database.get_asset`. -/
def Store.get_asset (s : Store) (asset_id : String) : Option AssetRow :=
  s.assets.find? (fun a => a.id = asset_id)

/-- `Database.toggle_favorite`: read the favorite flag, return `None` when the
asset id is unknown, otherwise flip the flag and return the re-read row. -/
def Store.toggle_favorite (s : Store) (asset_id : String) : Store × Option AssetRow :=
  match s.assets.find? (fun a => a.id = asset_id) with
  | none => (s, none)
  | some a0 =>
      let newVal : Int := if a0.favorite = 1 then 0 else 1
      let s1 : Store :=
        { s with assets := s.assets.map (fun a =>
            if a.id = asset_id then { a with favorite := newVal } else a) }
      (s1, s1.get_asset asset_id)

/-! ### Broadcast hub (`events.py`) -/

/-- A client's preference record.  Every record the hub ever stores has
exactly these four keys: `connect` installs `DEFAULT_WS_PREFS.copy()` and
`normalize_ws_prefs` only rewrites keys of `DEFAULT_WS_PREFS`, so the record
is modelled as a total structure (field defaults are `DEFAULT_WS_PREFS`). -/
structure WsPrefs where
  jobs : Bool := false
  job_progress : Bool := false
  assets : Bool := true
  system : Bool := true
  deriving DecidableEq

/-- `DEFAULT_WS_PREFS` from `events.py`. -/
def DEFAULT_WS_PREFS : WsPrefs := {}

/-- `normalize_ws_prefs(payload, current)`: a non-dict payload keeps the
current record; otherwise each of the four known keys present in the payload
overwrites the current flag with the payload value's truthiness.  The payload
is modelled as the sub-dictionary of the four known keys actually present. -/
def normalize_ws_prefs (payload : Option (List (String × Val))) (current : WsPrefs) : WsPrefs :=
  match payload with
  | none => current
  | some p =>
      { jobs := match p.lookup "jobs" with | some v => pyTruthy v | none => current.jobs
        job_progress := match p.lookup "job_progress" with
          | some v => pyTruthy v | none => current.job_progress
        assets := match p.lookup "assets" with | some v => pyTruthy v | none => current.assets
        system := match p.lookup "system" with | some v => pyTruthy v | none => current.system }

/-- `event_allowed(event_type, prefs)`: the fixed kind→flag routing table.
A missing (`None`) or empty event type is always allowed, as is any kind not
named in the table (fail-open). -/
def event_allowed (event_type : Option String) (prefs : WsPrefs) : Bool :=
  let t := event_type.getD ""
  if t = "" then true
  else if t = "job_update" ∨ t = "job_created" ∨ t = "jobs_snapshot" then prefs.jobs
  else if t = "job_progress" then prefs.job_progress
  else if t = "asset_created" ∨ t = "asset_updated" ∨ t = "assets_snapshot" then prefs.assets
  else if t = "comfy_connected" ∨ t = "comfy_disconnected" then prefs.system
  else true

/-- One connected observer in the hub's snapshot: its identity, its preference
record, and whether `ws.send_json` succeeds for the message being broadcast
(`false` models the send raising). -/
structure Observer where
  oid : Nat
  prefs : WsPrefs
  sendOk : Bool
  deriving DecidableEq

/-- Outcome of one `WebSocketManager.broadcast` call: the observers to whom a
send was attempted (in iteration order), those whose send succeeded, the
`dead` list, and the registry contents after the final cleanup pass. -/
structure BroadcastResult where
  attempted : List Observer
  delivered : List Observer
  dead : List Observer
  remaining : List Observer
  deriving DecidableEq

/-- The delivery loop of `WebSocketManager.broadcast`: skip observers whose
preferences reject the event, attempt the send for the rest, and append the
observer to `dead` when its send raises.  A failure never stops the loop. -/
def broadcastLoop (event_type : Option String) :
    List Observer → List Observer × List Observer × List Observer
  | [] => ([], [], [])
  | ws :: rest =>
      let r := broadcastLoop event_type rest
      if ¬ event_allowed event_type ws.prefs then r
      else if ws.sendOk then (ws :: r.1, ws :: r.2.1, r.2.2)
      else (ws :: r.1, r.2.1, ws :: r.2.2)

/-- `WebSocketManager.broadcast` over a snapshot of the registry: run the
delivery loop, then discard every observer in `dead` from the registry. -/
def broadcast (clients : List Observer) (event_type : Option String) : BroadcastResult :=
  let (attempted, delivered, dead) := broadcastLoop event_type clients
  { attempted := attempted
    delivered := delivered
    dead := dead
    remaining := clients.filter (fun ws => decide (ws ∉ dead)) }

/-! ### Output harvester (`harvest_assets_for_prompt` in `main.py`) -/

/-- Downloaded image bytes. -/
abbrev Bytes := List Nat

/-- One entry of a node output's `images` list in the ComfyUI `/history`
manifest: `filename` is `image_info.get("filename")` (`none` when absent or
null), `subfolder` and `folder_type` carry the `.get` defaults `""` and
`"output"`. -/
structure ImageInfo where
  filename : Option String
  subfolder : String := ""
  folder_type : String := "output"
  deriving DecidableEq

/-- The upstream ComfyUI engine as seen by the harvester and the event loop.
`history pid` is the node-id → images part of `/history`'s entry for `pid`
(`none` when the entry is missing or falsy; an inner `none` models a
node output that is not a dict or has no `images` key).  `view f sub typ` is
the result of `get_view_image` (`none` when the download raises). -/
structure ComfyBackend where
  history : String → Option (List (String × Option (List ImageInfo)))
  view : String → String → String → Option Bytes

/-- The `meta` dictionary stored on a harvested asset (the nested `comfy`
sub-dictionary of the source is flattened into prefixed keys). -/
def metaForImage (prompt_id node_id filename subfolder folder_type : String) :
    List (String × Val) :=
  [("prompt_id", Val.vStr prompt_id), ("node_id", Val.vStr node_id),
   ("comfy_filename", Val.vStr filename), ("comfy_subfolder", Val.vStr subfolder),
   ("comfy_type", Val.vStr folder_type)]

/-- The per-call context of a harvest: the backend, the job/correlation ids,
the recipe snapshot taken from the job row, fresh-name generators for asset
ids (`uuid.uuid4`) and stored filenames (`new_asset_filename`), indexed by a
creation counter, and the wall-clock timestamp. -/
structure HarvestCtx where
  comfy : ComfyBackend
  job_id : String
  prompt_id : String
  recipe : Recipe
  freshAssetId : Nat → String
  freshFilename : Nat → String
  now : String

/-- The inner `for image_info in images` loop of `harvest_assets_for_prompt`:
skip an image with a missing or empty filename; a failing download is
swallowed and the loop continues; a successful download persists an asset row
and appends the re-read row (`db.get_asset`) to the accumulator. -/
def harvestImages (c : HarvestCtx) (node_id : String) :
    List ImageInfo → Store → List AssetRow → Nat → Store × List AssetRow × Nat
  | [], s, acc, k => (s, acc, k)
  | img :: rest, s, acc, k =>
      match img.filename with
      | none => harvestImages c node_id rest s acc k
      | some f =>
          if f = "" then harvestImages c node_id rest s acc k
          else
            match c.comfy.view f img.subfolder img.folder_type with
            | none => harvestImages c node_id rest s acc k
            | some _bytes =>
                let aid := c.freshAssetId k
                let row : AssetRow :=
                  ⟨aid, c.job_id, "comfy", c.freshFilename k, c.now, 0, c.recipe,
                    metaForImage c.prompt_id node_id f img.subfolder img.folder_type⟩
                let s1 := s.create_asset row
                let acc1 := match s1.get_asset aid with
                  | some r => acc ++ [r]
                  | none => acc
                harvestImages c node_id rest s1 acc1 (k + 1)

/-- The outer `for node_id, node_output in outputs.items()` loop. -/
def harvestNodes (c : HarvestCtx) :
    List (String × Option (List ImageInfo)) → Store → List AssetRow → Nat →
      Store × List AssetRow × Nat
  | [], s, acc, k => (s, acc, k)
  | (node_id, node_output) :: rest, s, acc, k =>
      let r := harvestImages c node_id (node_output.getD []) s acc k
      harvestNodes c rest r.1 r.2.1 r.2.2

/-- `harvest_assets_for_prompt(job_id, prompt_id)`: empty result when the
`/history` manifest has no entry for the correlation id or the job row is
unknown; otherwise process every declared output, swallowing per-output
failures, and return the newly created assets. -/
def harvest_assets_for_prompt (comfy : ComfyBackend) (s : Store) (job_id prompt_id : String)
    (freshAssetId freshFilename : Nat → String) (now : String) : Store × List AssetRow :=
  match comfy.history prompt_id with
  | none => (s, [])
  | some outputs =>
      match s.get_job job_id with
      | none => (s, [])
      | some job =>
          let c : HarvestCtx :=
            ⟨comfy, job_id, prompt_id,
              ⟨job.engine, job.prompt, job.negative_prompt, job.params⟩,
              freshAssetId, freshFilename, now⟩
          let r := harvestNodes c outputs s [] 0
          (r.1, r.2.1)

/-! ### Upstream event consumer (`comfy_ws_loop` in `main.py`) -/

/-- An application event handed to `ws_manager.broadcast`.  Job payloads are
the row re-read from the store after the corresponding write
(`jobrow_to_out(db.get_job(...))`); the option records that the re-read can in
principle return `None`. -/
inductive AppEvent where
  | job_created (job : Option JobRow)
  | job_update (job : Option JobRow)
  | job_progress (job_id prompt_id : String) (value maxv : Rat)
  | asset_created (asset : AssetRow)
  | asset_updated (asset : AssetRow)
  | comfy_connected
  | comfy_disconnected
  deriving DecidableEq

/-- One structured (non-binary) frame of the ComfyUI websocket stream, reduced
to the fields `comfy_ws_loop` reads: `mtype` is `msg.get("type")`;
`prompt_id` is `data.get("prompt_id")` pre-stringified, with `none` covering
an absent or falsy value (the loop skips those); `node` is `data.get("node")`
(`none` models null/absent); `value`/`max` are `float(data.get(...., 0))`;
`errText` is the truncated `json.dumps(data)[:2000]` payload stored on an
error transition. -/
structure WsEvent where
  mtype : Option String
  prompt_id : Option String
  node : Option String := none
  value : Rat := 0
  max : Rat := 0
  errText : String := ""
  deriving DecidableEq

/-- The result of processing one websocket frame (or a whole batch): the
updated store, the broadcasts emitted in order, and the harvest invocations
`(job_id, prompt_id)` performed. -/
structure StepOut where
  store : Store
  broadcasts : List AppEvent
  harvests : List (String × String)
  deriving DecidableEq

/-- `executing` with `node == None`, or `execution_success`: the two event
shapes the loop treats as completion signals. -/
def isDoneSignal (e : WsEvent) : Bool :=
  (e.mtype = some "executing" ∧ e.node = none) ∨ e.mtype = some "execution_success"

/-- The body of `comfy_ws_loop` for one received frame.  The source tests the
event kinds in four separate `if` statements; the kinds are mutually
exclusive strings, so the chain below is observably identical.  Events
without a truthy `prompt_id`, or whose correlation id matches no job, are
ignored.  On a completion signal the job is re-read and skipped when
`harvested` is already 1; otherwise the status is set to `completed`, a
`job_update` is broadcast, the harvester runs, `harvested` is set to 1 and one
`asset_created` per new asset is broadcast. -/
def comfy_ws_step (comfy : ComfyBackend) (freshAssetId freshFilename : Nat → String)
    (now : String) (s : Store) (e : WsEvent) : StepOut :=
  match e.prompt_id with
  | none => ⟨s, [], []⟩
  | some pid =>
      match s.get_job_by_prompt_id pid with
      | none => ⟨s, [], []⟩
      | some job =>
          if e.mtype = some "execution_start" then
            let s1 := s.update_job job.id { status := some "running" } now
            ⟨s1, [AppEvent.job_update (s1.get_job job.id)], []⟩
          else if e.mtype = some "progress" then
            let s1 := s.update_job job.id
              { progress_value := some e.value, progress_max := some e.max } now
            ⟨s1, [AppEvent.job_progress job.id pid e.value e.max], []⟩
          else if e.mtype = some "execution_error" ∨ e.mtype = some "execution_interrupted" then
            let s1 := s.update_job job.id { status := some "failed", error := some e.errText } now
            ⟨s1, [AppEvent.job_update (s1.get_job job.id)], []⟩
          else if isDoneSignal e then
            let skip : Bool := match s.get_job job.id with
              | some latest => latest.harvested == 1
              | none => false
            if skip then ⟨s, [], []⟩
            else
              let s1 := s.update_job job.id { status := some "completed" } now
              let ev1 := AppEvent.job_update (s1.get_job job.id)
              let hr := harvest_assets_for_prompt comfy s1 job.id pid freshAssetId freshFilename now
              let s3 := hr.1.update_job job.id { harvested := some 1 } now
              ⟨s3, [ev1] ++ hr.2.map AppEvent.asset_created, [(job.id, pid)]⟩
          else ⟨s, [], []⟩

/-- Sequential processing of a list of frames by the single-threaded consumer
loop (there is exactly one receiver, so frames are applied in order with no
interleaving). -/
def comfy_ws_run (comfy : ComfyBackend) (freshAssetId freshFilename : Nat → String)
    (now : String) : Store → List WsEvent → StepOut
  | s, [] => ⟨s, [], []⟩
  | s, e :: events =>
      let o := comfy_ws_step comfy freshAssetId freshFilename now s e
      let r := comfy_ws_run comfy freshAssetId freshFilename now o.store events
      ⟨r.store, o.broadcasts ++ r.broadcasts, o.harvests ++ r.harvests⟩

/-! ### HTTP endpoints (`main.py`) -/

/-- How an API call can end: a validation failure raised by the pydantic
model (FastAPI's 422), an `HTTPException` raised by the handler, or an
uncaught Python exception escaping the handler (FastAPI's 500). -/
inductive ApiErr where
  | validationError (detail : String)
  | httpErr (status : Nat) (detail : String)
  | pythonError (msg : String)
  deriving DecidableEq

/-- The method names defined on the `Database` class in `db.py`.  `main.py`'s
`get_job` handler calls `db.list_assets_by_job(job_id)`, which is not among
them, so that attribute access raises `AttributeError` at runtime. -/
def databaseMethods : List String :=
  ["create_job", "update_job", "get_job", "get_job_by_prompt_id", "list_jobs",
   "create_asset", "list_assets", "get_asset", "toggle_favorite",
   "create_grok_message", "list_grok_messages", "clear_grok_messages"]

/-- The `GET /api/jobs/{job_id}` response: the job row (as serialized by
`jobrow_to_out`) plus the `(id, filename)` output references of its assets. -/
structure JobDetail where
  row : JobRow
  outputs : List (String × String)
  deriving DecidableEq

/-- The `get_job` handler of `main.py`: 404 when the id matches no row;
otherwise it evaluates `db.list_assets_by_job`, an attribute the `Database`
class does not define, so for every existing job the handler raises
`AttributeError` before building the response. -/
def api_get_job (s : Store) (job_id : String) : Except ApiErr JobDetail :=
  match s.get_job job_id with
  | none => Except.error (ApiErr.httpErr 404 "job not found")
  | some row =>
      if databaseMethods.contains "list_assets_by_job" then
        Except.ok
          ⟨row, (s.assets.filter (fun a => a.job_id == job_id)).map (fun a => (a.id, a.filename))⟩
      else
        Except.error (ApiErr.pythonError
          "AttributeError: Database object has no attribute list_assets_by_job")

/-! ### Job creation (`JobCreate`, `_normalize_job_params`, `create_job`) -/

/-- A `POST /api/jobs` request body as pydantic sees it.  `params` is the
JSON `params` object (`Val.vNull` for JSON null).  `fieldsSet` is the
sub-dictionary of top-level model fields the client explicitly provided
(pydantic's `model_fields_set`), with `none` for an explicit null; fields not
listed keep their declared defaults. -/
structure JobCreateReq where
  params : List (String × Val) := []
  fieldsSet : List (String × Option Val) := []
  deriving DecidableEq

/-- The `workflow_id` field value: its declared default
`"flux2_klein_distilled"` unless explicitly provided. -/
def JobCreateReq.workflow_id (r : JobCreateReq) : String :=
  match r.fieldsSet.lookup "workflow_id" with
  | some (some v) => pyStr v
  | _ => "flux2_klein_distilled"

/-- The `_validate_prompt` model validator: take the top-level `prompt` field,
fall back to `params["prompt"]` when it is `None`, and reject when the result
is `None` or whitespace-only. -/
def validate_prompt (r : JobCreateReq) : Bool :=
  let p1 : Option Val := (r.fieldsSet.lookup "prompt").bind id
  let p2 : Option Val := match p1 with
    | some v => some v
    | none => match r.params.lookup "prompt" with
      | some Val.vNull => none
      | some v => some v
      | none => none
  match p2 with
  | none => false
  | some v => pyStrip (pyStr v) ≠ ""

/-- The legacy top-level field names merged by `_normalize_job_params`. -/
def legacy_fields : List String :=
  ["prompt", "negative_prompt", "width", "height", "steps", "cfg", "sampler_name",
   "scheduler", "seed", "batch_size", "clip_skip", "vae", "checkpoint", "workflow_id"]

/-- `_normalize_job_params`: copy the non-null entries of `params`, then
overwrite with each legacy field that was explicitly provided with a non-null
value. -/
def normalize_job_params (r : JobCreateReq) : List (String × Val) :=
  let base := r.params.foldl
    (fun d kv => match kv.2 with
      | Val.vNull => d
      | v => dictInsert d kv.1 v)
    []
  legacy_fields.foldl
    (fun d f => match r.fieldsSet.lookup f with
      | some (some v) => dictInsert d f v
      | _ => d)
    base

/-- `pick_checkpoint(override)`: a truthy override wins, then the configured
`settings.comfy_checkpoint`, then the first cached checkpoint, then the
hard-coded fallback. -/
def pick_checkpoint (comfy_checkpoint : String) (cached : List String)
    (override : Option Val) : Val :=
  match override with
  | some v =>
      if pyTruthy v then v
      else if comfy_checkpoint ≠ "" then Val.vStr comfy_checkpoint
      else match cached with
        | c :: _ => Val.vStr c
        | [] => Val.vStr "v1-5-pruned-emaonly.safetensors"
  | none =>
      if comfy_checkpoint ≠ "" then Val.vStr comfy_checkpoint
      else match cached with
        | c :: _ => Val.vStr c
        | [] => Val.vStr "v1-5-pruned-emaonly.safetensors"

/-- A registry entry (`workflow_registry.get_workflow`): the key set of the
manifest's `params` section is all `create_job` inspects before handing the
manifest to the background task. -/
structure Workflow where
  manifest_params : List String
  deriving DecidableEq

/-- The `mapping_defaults` table of `create_job`. -/
def mapping_defaults : List (String × List String) :=
  [("width", ["width_scheduler"]), ("height", ["height_scheduler"]), ("cfg", ["guidance"])]

/-- What `create_job` produces on success: the new store, the broadcasts sent
before returning, the scheduled background-submission task
`(job_id, patch_params)`, and the response row (`db.get_job` re-read). -/
structure CreateJobResult where
  store : Store
  broadcasts : List AppEvent
  task : Option (String × List (String × Val))
  response : Option JobRow
  deriving DecidableEq

/-- The `POST /api/jobs` handler (`create_job`, workflow-registry path — the
legacy branch is dead code behind `if True`).  Pydantic validation runs first;
then the handler re-derives the prompt from the normalized params and rejects
an empty one with 400; an unknown workflow id is rejected with 404 before any
row is written; otherwise one `queued` row with no correlation id is
persisted, a `job_created` event is broadcast, and the background submission
is scheduled before the re-read row is returned. -/
def api_create_job (registry : List (String × Workflow)) (comfy_checkpoint : String)
    (cached_checkpoints : List String) (s : Store) (r : JobCreateReq)
    (job_id now : String) : Except ApiErr CreateJobResult :=
  if ¬ validate_prompt r then Except.error (ApiErr.validationError "prompt is required")
  else
    let normalized := normalize_job_params r
    let prompt := pyStrip (match normalized.lookup "prompt" with
      | some v => if pyTruthy v then pyStr v else ""
      | none => "")
    if prompt = "" then Except.error (ApiErr.httpErr 400 "prompt is empty")
    else
      let normalized := dictInsert normalized "prompt" (Val.vStr prompt)
      let workflow_id :=
        if (r.fieldsSet.lookup "workflow_id").isSome then r.workflow_id
        else match normalized.lookup "workflow_id" with
          | some v => if pyTruthy v then pyStr v else r.workflow_id
          | none => r.workflow_id
      match registry.lookup workflow_id with
      | none => Except.error (ApiErr.httpErr 404 ("Workflow not found: " ++ workflow_id))
      | some wf =>
          let patch_params := normalized.filter (fun kv => kv.1 ≠ "workflow_id")
          let patch_params := mapping_defaults.foldl
            (fun pp st =>
              match normalized.lookup st.1 with
              | none => pp
              | some v =>
                  st.2.foldl
                    (fun pp2 target =>
                      if wf.manifest_params.contains target ∧ (pp2.lookup target).isNone then
                        dictInsert pp2 target v
                      else pp2)
                    pp)
            patch_params
          let hasCk := (patch_params.lookup "checkpoint").isSome
          let resolved : Option Val :=
            if hasCk ∧ wf.manifest_params.contains "checkpoint" then
              some (pick_checkpoint comfy_checkpoint cached_checkpoints
                (patch_params.lookup "checkpoint"))
            else none
          let patch_params :=
            match resolved with
            | some v => dictInsert patch_params "checkpoint" v
            | none =>
                if hasCk ∧ ¬ wf.manifest_params.contains "checkpoint" then
                  patch_params.filter (fun kv => kv.1 ≠ "checkpoint")
                else patch_params
          let params := dictInsert normalized "workflow_id" (Val.vStr workflow_id)
          let params := match resolved with
            | some v => dictInsert params "checkpoint" v
            | none => params
          let negative_prompt := match params.lookup "negative_prompt" with
            | some v => pyStr v
            | none => ""
          let s1 := s.create_job job_id "comfy" "queued" prompt negative_prompt params none now
          Except.ok
            { store := s1
              broadcasts := [AppEvent.job_created (s1.get_job job_id)]
              task := some (job_id, patch_params)
              response := s1.get_job job_id }

/-! ### Background submission (`_submit_prompt_background`) -/

/-- How the patch + submission sequence inside the background task can end:
the upstream accepted and returned this response dictionary, `apply_patch`
raised `PatchError`, or some other exception (unreachable engine, upstream
rejection, ...) was raised with this message. -/
inductive SubmitOutcome where
  | success (res : List (String × Val))
  | patchError (msg : String)
  | raised (msg : String)
  deriving DecidableEq

/-- `_submit_prompt_background`: on success, when the response carries a
truthy `prompt_id`, store it and broadcast `job_update`; a missing/falsy
`prompt_id` raises `RuntimeError`, and every exception (that one, `PatchError`
or anything else) is caught inside the task and converted into the terminal
failure transition plus a `job_update` broadcast.  The function is total:
nothing propagates out of the task. -/
def submit_prompt_background (s : Store) (job_id : String) (outcome : SubmitOutcome)
    (now : String) : Store × List AppEvent :=
  match outcome with
  | SubmitOutcome.success res =>
      let pid := res.lookup "prompt_id"
      match pid with
      | some v =>
          if pyTruthy v then
            let s1 := s.update_job job_id { prompt_id := some (pyStr v) } now
            (s1, [AppEvent.job_update (s1.get_job job_id)])
          else
            let s1 := s.update_job job_id
              { status := some "failed", error := some "ComfyUI did not return prompt_id" } now
            (s1, [AppEvent.job_update (s1.get_job job_id)])
      | none =>
          let s1 := s.update_job job_id
            { status := some "failed", error := some "ComfyUI did not return prompt_id" } now
          (s1, [AppEvent.job_update (s1.get_job job_id)])
  | SubmitOutcome.patchError e =>
      let s1 := s.update_job job_id
        { status := some "failed", error := some ("Patch error: " ++ e) } now
      (s1, [AppEvent.job_update (s1.get_job job_id)])
  | SubmitOutcome.raised e =>
      let s1 := s.update_job job_id { status := some "failed", error := some e } now
      (s1, [AppEvent.job_update (s1.get_job job_id)])

/-- Whether the background task took one of its failure paths. -/
def SubmitOutcome.isFailure : SubmitOutcome → Bool
  | SubmitOutcome.success res =>
      match res.lookup "prompt_id" with
      | some v => ¬ pyTruthy v
      | none => true
  | SubmitOutcome.patchError _ => true
  | SubmitOutcome.raised _ => true

/-- The error message recorded by the failure transition. -/
def SubmitOutcome.failMsg : SubmitOutcome → String
  | SubmitOutcome.success _ => "ComfyUI did not return prompt_id"
  | SubmitOutcome.patchError e => "Patch error: " ++ e
  | SubmitOutcome.raised e => e

/-! ### Specification-side predicates used by the theorem statements -/

/-- Every stored row for job `j` has the `harvested` flag set. -/
def HarvestedAll (s : Store) (j : String) : Prop :=
  ∀ r ∈ s.jobs, r.id = j → r.harvested = 1

/-- Whether one declared image of the manifest downloads successfully: it has
a non-empty filename and `get_view_image` returns bytes. -/
def imageOk (comfy : ComfyBackend) (img : ImageInfo) : Bool :=
  match img.filename with
  | none => false
  | some f => f ≠ "" && (comfy.view f img.subfolder img.folder_type).isSome

/-- All images declared by a `/history` manifest, in iteration order. -/
def declaredImages (outputs : List (String × Option (List ImageInfo))) : List ImageInfo :=
  outputs.foldr (fun node acc => node.2.getD [] ++ acc) []

/-- The event kinds named by the routing table of `event_allowed`. -/
def knownEventKinds : List String :=
  ["job_update", "job_created", "jobs_snapshot", "job_progress", "asset_created",
   "asset_updated", "assets_snapshot", "comfy_connected", "comfy_disconnected"]

/-! ### Concrete inputs for witnesses and counterexamples -/

/-- A backend with no history entries and failing downloads. -/
def emptyBackend : ComfyBackend := ⟨fun _ => none, fun _ _ _ => none⟩

/-- A trivial fresh-name generator. -/
def frName : Nat → String := fun k => "n" ++ toString k

/-- A queued job row correlated with prompt id `p1`. -/
def jobQueued : JobRow :=
  ⟨"j1", "comfy", "queued", some "p1", "x", "", [], "t0", "t0", 0, 0, 0, none⟩

/-- A store holding just `jobQueued`. -/
def storeQueued : Store := ⟨[jobQueued], []⟩

/-- An `execution_error` frame for prompt id `p1`. -/
def evError : WsEvent := ⟨some "execution_error", some "p1", none, 0, 0, "boom"⟩

/-- An `execution_start` frame for prompt id `p1`. -/
def evStart : WsEvent := ⟨some "execution_start", some "p1", none, 0, 0, ""⟩

/-- A completion frame (`executing` with `node == None`) for prompt id `p1`. -/
def evDone : WsEvent := ⟨some "executing", some "p1", none, 0, 0, ""⟩

/-- A completed job row (harvested flag set) correlated with `p1`. -/
def jobHarvestedRow : JobRow :=
  ⟨"j1", "comfy", "completed", some "p1", "x", "", [], "t0", "t0", 0, 0, 1, none⟩

/-- A store holding just `jobHarvestedRow`. -/
def storeHarvested : Store := ⟨[jobHarvestedRow], []⟩

/-- A nonempty update used by the `update_job` witness. -/
def updRunning : JobUpdate := { status := some "running" }

/-- Observers with mixed preferences whose sends all succeed. -/
def obsProgressOn : Observer := ⟨1, { job_progress := true }, true⟩

/-- An observer whose progress flag is off. -/
def obsProgressOff : Observer := ⟨2, { job_progress := false }, true⟩

/-- The registry used by the create-job witness: the default workflow with a
single `prompt` manifest parameter. -/
def registryW : List (String × Workflow) := [("flux2_klein_distilled", ⟨["prompt"]⟩)]

/-- A request carrying only `params = {"prompt": "x"}`. -/
def reqPromptX : JobCreateReq := ⟨[("prompt", Val.vStr "x")], []⟩

/-- The empty store. -/
def storeEmpty : Store := ⟨[], []⟩

/-- The job row `api_create_job` persists for `reqPromptX` against
`registryW`. -/
def rowCreatedW : JobRow :=
  ⟨"j1", "comfy", "queued", none, "x", "",
    [("prompt", Val.vStr "x"), ("workflow_id", Val.vStr "flux2_klein_distilled")],
    "t0", "t0", 0, 0, 0, none⟩

/-- The successful `api_create_job` result for `reqPromptX` against
`registryW`. -/
def createResW : CreateJobResult :=
  { store := ⟨[rowCreatedW], []⟩
    broadcasts := [AppEvent.job_created (some rowCreatedW)]
    task := some ("j1", [("prompt", Val.vStr "x")])
    response := some rowCreatedW }

/-- A backend whose manifest for `p1` declares two images, one downloadable
and one whose download fails. -/
def backendTwoImages : ComfyBackend :=
  ⟨fun pid =>
      if pid = "p1" then
        some [("9", some [⟨some "a.png", "", "output"⟩, ⟨some "b.png", "", "output"⟩])]
      else none,
    fun f _ _ => if f = "a.png" then some [7] else none⟩

/-! ## Theorems -/

/-- C9: `update_job` applies exactly the fields explicitly provided; whenever
at least one field is provided it also refreshes `updated_at`, keeping every
other column of the matching row, every non-matching row and the assets table
unchanged; and with no field provided it is a complete no-op, `updated_at`
included. -/
theorem C9_update_job_partial_fields (s : Store) (job_id : String) (u : JobUpdate)
    (now : String) :
    (u.isEmpty = true → s.update_job job_id u now = s) ∧
    (u.isEmpty = false →
      (s.update_job job_id u now).jobs = s.jobs.map (fun r =>
        if r.id = job_id then
          ⟨r.id, r.engine, u.status.getD r.status,
            (match u.prompt_id with | some p => some p | none => r.prompt_id),
            r.prompt, r.negative_prompt, r.params, r.created_at, now,
            u.progress_value.getD r.progress_value, u.progress_max.getD r.progress_max,
            u.harvested.getD r.harvested,
            (match u.error with | some e => some e | none => r.error)⟩
        else r) ∧
      (s.update_job job_id u now).assets = s.assets) := by
  constructor
  · intro h
    simp [Store.update_job, h]
  · intro h
    constructor
    · simp [Store.update_job, h, applyJobUpdate]
    · simp [Store.update_job, h]

/-- Witness for C9: a nonempty update rewrites the provided field and
`updated_at` of the matching row only, and the empty update is the
identity. -/
theorem C9_update_job_partial_fields_witness :
    Store.update_job storeQueued "j1" {} "t1" = storeQueued ∧
    (Store.update_job storeQueued "j1" updRunning "t1").jobs =
      [⟨"j1", "comfy", "running", some "p1", "x", "", [], "t0", "t1", 0, 0, 0, none⟩] := by
  constructor
  · exact (C9_update_job_partial_fields storeQueued "j1" {} "t1").1 rfl
  · have h := (C9_update_job_partial_fields storeQueued "j1" updRunning "t1").2 rfl
    rw [h.1]
    rfl

/-- C10: calling `update_job` with a job id matching no stored row raises no
error and returns with every stored row unchanged — the update path, unlike
`get_job`, exposes no NotFound outcome. -/
theorem C10_update_job_unknown_id (s : Store) (job_id : String) (u : JobUpdate)
    (now : String) (h : s.get_job job_id = none) :
    s.update_job job_id u now = s := by
  unfold Store.update_job
  split
  · rfl
  · have hall : ∀ r ∈ s.jobs, ¬ (r.id = job_id) := by
      intro r hr
      have hx := List.find?_eq_none.mp h r hr
      simpa using hx
    have hmap : s.jobs.map
        (fun r => if r.id = job_id then applyJobUpdate u now r else r) = s.jobs := by
      have hcongr : s.jobs.map
          (fun r => if r.id = job_id then applyJobUpdate u now r else r) =
            s.jobs.map (fun r => r) :=
        List.map_congr_left (by intro r hr; simp [hall r hr])
      simpa using hcongr
    rw [hmap]

/-- Witness for C10 at a store that does not contain the updated id. -/
theorem C10_update_job_unknown_id_witness :
    Store.get_job storeQueued "nope" = none ∧
    Store.update_job storeQueued "nope" updRunning "t1" = storeQueued :=
  ⟨rfl, C10_update_job_unknown_id storeQueued "nope" updRunning "t1" rfl⟩

/-- C3 (code bug): for a store containing job `j1`, `GET /api/jobs/j1` does
not return the stored job — the handler evaluates `db.list_assets_by_job`, an
attribute the `Database` class never defines, and raises `AttributeError`;
only the missing-id case behaves as specified (404). -/
theorem C3_get_job_attribute_error :
    Store.get_job storeQueued "j1" = some jobQueued ∧
    api_get_job storeQueued "j1" =
      Except.error (ApiErr.pythonError
        "AttributeError: Database object has no attribute list_assets_by_job") ∧
    api_get_job storeQueued "missing" = Except.error (ApiErr.httpErr 404 "job not found") :=
  ⟨rfl, rfl, rfl⟩

/-- C1 counterexample: after `execution_error` drives job `j1` to the
terminal status `failed`, a subsequent `execution_start` for the same
correlation id records a further transition back to `running` — the loop
applies transitions without checking the current status. -/
theorem C1_counterexample_terminal_transition :
    ((comfy_ws_run emptyBackend frName frName "t1" storeQueued [evError]).store.get_job
        "j1").map JobRow.status = some "failed" ∧
    ((comfy_ws_run emptyBackend frName frName "t1" storeQueued
        [evError, evStart]).store.get_job "j1").map JobRow.status = some "running" :=
  ⟨rfl, rfl⟩

/-- C1 amended: terminality holds only on the completion path — once the
job's `harvested` flag is set, a completion-equivalent event is skipped after
the re-read and records no state change at all; `execution_start`, `progress`
and `execution_error`/`execution_interrupted` events, however, are applied
without checking the current status, so they can record transitions out of
`completed` or `failed`. -/
theorem C1_amended_done_signal_noop (comfy : ComfyBackend) (fA fF : Nat → String)
    (now : String) (s : Store) (e : WsEvent) (pid : String) (job latest : JobRow)
    (hpid : e.prompt_id = some pid)
    (hjob : s.get_job_by_prompt_id pid = some job)
    (hdone : isDoneSignal e = true)
    (hlatest : s.get_job job.id = some latest)
    (hharv : latest.harvested = 1) :
    comfy_ws_step comfy fA fF now s e = ⟨s, [], []⟩ := by
  have hm : e.mtype = some "executing" ∧ e.node = none ∨ e.mtype = some "execution_success" := by
    simpa [isDoneSignal] using hdone
  unfold comfy_ws_step
  rcases hm with ⟨hmt, hnode⟩ | hmt
  · simp [hpid, hjob, hmt, hnode, isDoneSignal, hlatest, hharv]
  · simp [hpid, hjob, hmt, isDoneSignal, hlatest, hharv]

/-- Witness for the amended C1: a completion frame against an
already-harvested job is a no-op. -/
theorem C1_amended_done_signal_noop_witness :
    comfy_ws_step emptyBackend frName frName "t1" storeHarvested evDone =
      ⟨storeHarvested, [], []⟩ :=
  C1_amended_done_signal_noop emptyBackend frName frName "t1" storeHarvested evDone "p1"
    jobHarvestedRow jobHarvestedRow rfl rfl (by decide) rfl rfl

/-- Characterization of the delivery loop: the attempted, delivered and dead
lists are the filters of the snapshot by (respectively) preference admission,
admission plus send success, and admission plus send failure. -/
theorem broadcastLoop_spec (clients : List Observer) (event_type : Option String) :
    broadcastLoop event_type clients =
      (clients.filter (fun o => event_allowed event_type o.prefs),
       clients.filter (fun o => event_allowed event_type o.prefs && o.sendOk),
       clients.filter (fun o => event_allowed event_type o.prefs && !o.sendOk)) := by
  induction clients with
  | nil => rfl
  | cons ws rest ih =>
      by_cases hA : event_allowed event_type ws.prefs
      · by_cases hOk : ws.sendOk
        · simp [broadcastLoop, hA, hOk, ih, List.filter_cons]
        · have hOk2 : ws.sendOk = false := by simpa using hOk
          simp [broadcastLoop, hA, hOk2, ih, List.filter_cons]
      · have hA2 : event_allowed event_type ws.prefs = false := by simpa using hA
        simp [broadcastLoop, hA2, ih, List.filter_cons]

/-- The delivered set of one broadcast, as a filter of the snapshot. -/
theorem broadcast_delivered_eq (clients : List Observer) (event_type : Option String) :
    (broadcast clients event_type).delivered =
      clients.filter (fun o => event_allowed event_type o.prefs && o.sendOk) := by
  simp [broadcast, broadcastLoop_spec]

/-- The attempted set of one broadcast, as a filter of the snapshot. -/
theorem broadcast_attempted_eq (clients : List Observer) (event_type : Option String) :
    (broadcast clients event_type).attempted =
      clients.filter (fun o => event_allowed event_type o.prefs) := by
  simp [broadcast, broadcastLoop_spec]

/-- The registry after the cleanup pass of one broadcast. -/
theorem broadcast_remaining_eq (clients : List Observer) (event_type : Option String) :
    (broadcast clients event_type).remaining =
      clients.filter (fun o => !(event_allowed event_type o.prefs && !o.sendOk)) := by
  have hdead : (broadcast clients event_type).remaining = clients.filter
      (fun ws => decide (ws ∉ clients.filter
        (fun o => event_allowed event_type o.prefs && !o.sendOk))) := by
    simp [broadcast, broadcastLoop_spec]
  rw [hdead]
  apply List.filter_congr
  intro ws hws
  by_cases hA : event_allowed event_type ws.prefs && !ws.sendOk
  · simp only [hA, Bool.not_true, decide_eq_false_iff_not, Decidable.not_not]
    simp only [List.mem_filter]
    exact ⟨hws, hA⟩
  · simp only [hA, Bool.not_false, decide_eq_true_eq]
    intro hmem
    exact hA (List.mem_filter.mp hmem).2

/-- C5: a delivery failure never prevents the attempt to deliver to any other
admitted observer (the attempted and delivered sets are filters of the
snapshot, independent of other observers' outcomes), and after the pass
exactly the observers whose delivery failed are removed from the registry
while the others remain. -/
theorem C5_broadcast_isolation_and_cleanup (clients : List Observer)
    (event_type : Option String) :
    (broadcast clients event_type).attempted =
        clients.filter (fun o => event_allowed event_type o.prefs) ∧
    (broadcast clients event_type).delivered =
        clients.filter (fun o => event_allowed event_type o.prefs && o.sendOk) ∧
    (broadcast clients event_type).remaining =
        clients.filter (fun o => !(event_allowed event_type o.prefs && !o.sendOk)) :=
  ⟨broadcast_attempted_eq clients event_type, broadcast_delivered_eq clients event_type,
    broadcast_remaining_eq clients event_type⟩

/-- C4: with every send succeeding, broadcast delivers the event to exactly
the observers whose preference flag for the event's category is true, per the
fixed kind→flag mapping, and delivers events with a missing, empty or
unrecognized kind to every observer (fail-open). -/
theorem C4_broadcast_routing (clients : List Observer) (event_type : Option String)
    (hok : ∀ o ∈ clients, o.sendOk = true) :
    ((event_type = some "job_created" ∨ event_type = some "job_update" ∨
        event_type = some "jobs_snapshot") →
      (broadcast clients event_type).delivered = clients.filter (fun o => o.prefs.jobs)) ∧
    (event_type = some "job_progress" →
      (broadcast clients event_type).delivered =
        clients.filter (fun o => o.prefs.job_progress)) ∧
    ((event_type = some "asset_created" ∨ event_type = some "asset_updated" ∨
        event_type = some "assets_snapshot") →
      (broadcast clients event_type).delivered = clients.filter (fun o => o.prefs.assets)) ∧
    ((event_type = some "comfy_connected" ∨ event_type = some "comfy_disconnected") →
      (broadcast clients event_type).delivered = clients.filter (fun o => o.prefs.system)) ∧
    ((event_type = none ∨ ∃ t, event_type = some t ∧ (t = "" ∨ t ∉ knownEventKinds)) →
      (broadcast clients event_type).delivered = clients) := by
  have hdel := broadcast_delivered_eq clients event_type
  refine ⟨?_, ?_, ?_, ?_, ?_⟩
  · rintro (rfl | rfl | rfl) <;>
      · rw [hdel]
        apply List.filter_congr
        intro o ho
        simp [event_allowed, hok o ho]
  · rintro rfl
    rw [hdel]
    apply List.filter_congr
    intro o ho
    simp [event_allowed, hok o ho]
  · rintro (rfl | rfl | rfl) <;>
      · rw [hdel]
        apply List.filter_congr
        intro o ho
        simp [event_allowed, hok o ho]
  · rintro (rfl | rfl) <;>
      · rw [hdel]
        apply List.filter_congr
        intro o ho
        simp [event_allowed, hok o ho]
  · intro h
    rw [hdel]
    apply List.filter_eq_self.mpr
    intro o ho
    rcases h with rfl | ⟨t, rfl, ht⟩
    · simp [event_allowed, hok o ho]
    · rcases ht with rfl | ht
      · simp [event_allowed, hok o ho]
      · by_cases ht0 : t = ""
        · simp [event_allowed, ht0, hok o ho]
        · simp only [knownEventKinds, List.mem_cons, List.not_mem_nil, or_false,
            not_or] at ht
          simp [event_allowed, ht0, ht.1, ht.2.1, ht.2.2.1, ht.2.2.2.1, ht.2.2.2.2.1,
            ht.2.2.2.2.2.1, ht.2.2.2.2.2.2.1, ht.2.2.2.2.2.2.2.1, ht.2.2.2.2.2.2.2.2,
            hok o ho]

/-- Witness for C4: a `job_progress` event over two all-successful observers
with opposite progress flags is delivered exactly to the one whose flag is
on. -/
theorem C4_broadcast_routing_witness :
    (broadcast [obsProgressOn, obsProgressOff] (some "job_progress")).delivered =
      [obsProgressOn] := by
  have h := (C4_broadcast_routing [obsProgressOn, obsProgressOff] (some "job_progress")
      (by decide)).2.1 rfl
  rw [h]
  rfl

/-- C8: the background submission task always ends by broadcasting exactly
one `job_update` (it is a total function of its outcome — no exception
propagates out of the task); on a successful submission the returned
correlation id is stored on the job with everything else (status included)
unchanged; on any failure — patch error, upstream rejection, or a response
without a usable `prompt_id` — the job's status is set to `failed` with a
non-empty error message, so no failure can leave the job `queued` forever. -/
theorem C8_background_submission_outcome (s : Store) (job_id : String)
    (outcome : SubmitOutcome) (now : String)
    (hmsg : ∀ m, outcome = SubmitOutcome.raised m → m ≠ "") :
    (submit_prompt_background s job_id outcome now).2 =
      [AppEvent.job_update
        ((submit_prompt_background s job_id outcome now).1.get_job job_id)] ∧
    (outcome.isFailure = true →
      (submit_prompt_background s job_id outcome now).1.jobs = s.jobs.map (fun r =>
        if r.id = job_id then
          { r with status := "failed", error := some outcome.failMsg, updated_at := now }
        else r) ∧
      outcome.failMsg ≠ "") ∧
    (outcome.isFailure = false →
      ∃ res v, outcome = SubmitOutcome.success res ∧
        res.lookup "prompt_id" = some v ∧ pyTruthy v = true ∧
        (submit_prompt_background s job_id outcome now).1.jobs = s.jobs.map (fun r =>
          if r.id = job_id then
            { r with prompt_id := some (pyStr v), updated_at := now }
          else r)) := by
  cases outcome with
  | success res =>
      cases hv : res.lookup "prompt_id" with
      | none =>
          refine ⟨by simp [submit_prompt_background, hv], ?_, ?_⟩
          · intro _
            constructor
            · simp [submit_prompt_background, hv, Store.update_job, applyJobUpdate,
                SubmitOutcome.failMsg, JobUpdate.isEmpty]
            · simp [SubmitOutcome.failMsg]
          · intro hfail
            simp [SubmitOutcome.isFailure, hv] at hfail
      | some v =>
          by_cases ht : pyTruthy v = true
          · refine ⟨by simp [submit_prompt_background, hv, ht], ?_, ?_⟩
            · intro hfail
              simp [SubmitOutcome.isFailure, hv, ht] at hfail
            · intro _
              refine ⟨res, v, rfl, hv, ht, ?_⟩
              simp [submit_prompt_background, hv, ht, Store.update_job, applyJobUpdate,
                JobUpdate.isEmpty]
          · have ht2 : pyTruthy v = false := by simpa using ht
            refine ⟨by simp [submit_prompt_background, hv, ht2], ?_, ?_⟩
            · intro _
              constructor
              · simp [submit_prompt_background, hv, ht2, Store.update_job, applyJobUpdate,
                  SubmitOutcome.failMsg, JobUpdate.isEmpty]
              · simp [SubmitOutcome.failMsg]
            · intro hfail
              simp [SubmitOutcome.isFailure, hv, ht2] at hfail
  | patchError e =>
      refine ⟨by simp [submit_prompt_background], ?_, ?_⟩
      · intro _
        constructor
        · simp [submit_prompt_background, Store.update_job, applyJobUpdate,
            SubmitOutcome.failMsg, JobUpdate.isEmpty]
        · intro hc
          simp only [SubmitOutcome.failMsg] at hc
          have hlen := congrArg String.length hc
          rw [String.length_append] at hlen
          have h13 : ("Patch error: ").length = 13 := rfl
          have h0 : ("" : String).length = 0 := rfl
          rw [h13, h0] at hlen
          omega
      · intro hfail
        simp [SubmitOutcome.isFailure] at hfail
  | raised e =>
      refine ⟨by simp [submit_prompt_background], ?_, ?_⟩
      · intro _
        exact ⟨by simp [submit_prompt_background, Store.update_job, applyJobUpdate,
          SubmitOutcome.failMsg, JobUpdate.isEmpty], hmsg e rfl⟩
      · intro hfail
        simp [SubmitOutcome.isFailure] at hfail

/-- Witness for C8: an exception with message `boom` inside the task yields a
terminal `failed` row carrying that message, plus one `job_update`
broadcast. -/
theorem C8_background_submission_outcome_witness :
    (submit_prompt_background storeQueued "j1" (SubmitOutcome.raised "boom") "t1").1.jobs =
      [⟨"j1", "comfy", "failed", some "p1", "x", "", [], "t0", "t1", 0, 0, 0, some "boom"⟩] ∧
    (submit_prompt_background storeQueued "j1" (SubmitOutcome.raised "boom") "t1").2 =
      [AppEvent.job_update (some ⟨"j1", "comfy", "failed", some "p1", "x", "", [], "t0",
        "t1", 0, 0, 0, some "boom"⟩)] := by
  have h := C8_background_submission_outcome storeQueued "j1" (SubmitOutcome.raised "boom")
    "t1" (by intro m hm; cases hm; decide)
  exact ⟨((h.2.1 rfl).1).trans (by rfl), (h.1).trans (by rfl)⟩

/-- The harvester never touches the jobs table (inner image loop). -/
theorem harvestImages_jobs (c : HarvestCtx) (node_id : String) (imgs : List ImageInfo) :
    ∀ (s : Store) (acc : List AssetRow) (k : Nat),
      (harvestImages c node_id imgs s acc k).1.jobs = s.jobs := by
  induction imgs with
  | nil => intro s acc k; rfl
  | cons img rest ih =>
      intro s acc k
      cases hf : img.filename with
      | none => simp [harvestImages, hf, ih]
      | some f =>
          by_cases hf0 : f = ""
          · simp [harvestImages, hf, hf0, ih]
          · cases hv : c.comfy.view f img.subfolder img.folder_type with
            | none => simp [harvestImages, hf, hf0, hv, ih]
            | some b => simp [harvestImages, hf, hf0, hv, ih, Store.create_asset]

/-- The harvester never touches the jobs table (node loop). -/
theorem harvestNodes_jobs (c : HarvestCtx) (outputs : List (String × Option (List ImageInfo))) :
    ∀ (s : Store) (acc : List AssetRow) (k : Nat),
      (harvestNodes c outputs s acc k).1.jobs = s.jobs := by
  induction outputs with
  | nil => intro s acc k; rfl
  | cons node rest ih =>
      intro s acc k
      simp [harvestNodes, ih, harvestImages_jobs]

/-- The harvester never touches the jobs table. -/
theorem harvest_jobs_eq (comfy : ComfyBackend) (s : Store) (job_id prompt_id : String)
    (fA fF : Nat → String) (now : String) :
    (harvest_assets_for_prompt comfy s job_id prompt_id fA fF now).1.jobs = s.jobs := by
  unfold harvest_assets_for_prompt
  cases hh : comfy.history prompt_id with
  | none => rfl
  | some outputs =>
      cases hj : s.get_job job_id with
      | none => rfl
      | some job => simp [harvestNodes_jobs]

/-- `HarvestedAll` depends only on the jobs table. -/
theorem harvestedAll_of_jobs_eq (s1 s2 : Store) (j : String) (h : s2.jobs = s1.jobs)
    (ha : HarvestedAll s1 j) : HarvestedAll s2 j := by
  intro r hr hid
  rw [h] at hr
  exact ha r hr hid

/-- An update that does not lower the `harvested` flag preserves
`HarvestedAll`. -/
theorem harvestedAll_update_job (s : Store) (j job_id : String) (u : JobUpdate) (now : String)
    (hu : u.harvested = none ∨ u.harvested = some 1)
    (h : HarvestedAll s j) : HarvestedAll (s.update_job job_id u now) j := by
  intro r hr hid
  unfold Store.update_job at hr
  split at hr
  · exact h r hr hid
  · have hr2 : r ∈ s.jobs.map
        (fun r => if r.id = job_id then applyJobUpdate u now r else r) := hr
    rcases List.mem_map.mp hr2 with ⟨r0, hr0, hEq⟩
    by_cases hid0 : r0.id = job_id
    · rw [if_pos hid0] at hEq
      subst hEq
      have hharv0 : r0.harvested = 1 := h r0 hr0 (by simpa [applyJobUpdate] using hid)
      rcases hu with hu | hu <;> simp [applyJobUpdate, hu, hharv0]
    · rw [if_neg hid0] at hEq
      subst hEq
      exact h r0 hr0 hid

/-- Setting the `harvested` flag for `j` establishes `HarvestedAll`. -/
theorem harvestedAll_after_set (s : Store) (j : String) (now : String) :
    HarvestedAll (s.update_job j { harvested := some 1 } now) j := by
  have hrw : s.update_job j { harvested := some 1 } now =
      { s with jobs := s.jobs.map (fun r =>
          if r.id = j then applyJobUpdate { harvested := some 1 } now r else r) } := rfl
  rw [hrw]
  intro r hr hid
  have hr2 : r ∈ s.jobs.map
      (fun r => if r.id = j then applyJobUpdate { harvested := some 1 } now r else r) := hr
  rcases List.mem_map.mp hr2 with ⟨r0, hr0, hEq⟩
  by_cases hid0 : r0.id = j
  · rw [if_pos hid0] at hEq
    subst hEq
    simp [applyJobUpdate]
  · rw [if_neg hid0] at hEq
    subst hEq
    exact absurd hid hid0

/-- Once every row of job `j` is harvested, one loop step keeps it so and
performs no harvest for `j` (the completion guard re-reads the row and
skips). -/
theorem step_preserves_harvestedAll (comfy : ComfyBackend) (fA fF : Nat → String)
    (now : String) (s : Store) (e : WsEvent) (j : String) (h : HarvestedAll s j) :
    HarvestedAll (comfy_ws_step comfy fA fF now s e).store j ∧
    (comfy_ws_step comfy fA fF now s e).harvests.filter (fun p => p.1 = j) = [] := by
  unfold comfy_ws_step
  cases hp : e.prompt_id with
  | none => exact ⟨h, rfl⟩
  | some pid =>
      dsimp only
      cases hj : s.get_job_by_prompt_id pid with
      | none => exact ⟨h, rfl⟩
      | some job =>
          dsimp only
          by_cases h1 : e.mtype = some "execution_start"
          · simp only [h1, if_pos]
            exact ⟨harvestedAll_update_job s j job.id _ now (Or.inl rfl) h, rfl⟩
          · rw [if_neg h1]
            by_cases h2 : e.mtype = some "progress"
            · simp only [h2, if_pos]
              exact ⟨harvestedAll_update_job s j job.id _ now (Or.inl rfl) h, rfl⟩
            · rw [if_neg h2]
              by_cases h3 : e.mtype = some "execution_error" ∨
                  e.mtype = some "execution_interrupted"
              · rw [if_pos h3]
                exact ⟨harvestedAll_update_job s j job.id _ now (Or.inl rfl) h, rfl⟩
              · rw [if_neg h3]
                by_cases h4 : isDoneSignal e = true
                · rw [if_pos h4]
                  by_cases hjid : job.id = j
                  · have hjob_mem : job ∈ s.jobs := List.mem_of_find?_eq_some hj
                    have hfind : ∃ latest, s.jobs.find?
                        (fun r => r.id = job.id) = some latest := by
                      have hex : ∃ x ∈ s.jobs, (fun r => decide (r.id = job.id)) x = true := by
                        exact ⟨job, hjob_mem, by simp⟩
                      rcases List.find?_isSome.mpr hex |> Option.isSome_iff_exists.mp with ⟨latest, hl⟩
                      exact ⟨latest, hl⟩
                    rcases hfind with ⟨latest, hl⟩
                    have hmem : latest ∈ s.jobs := List.mem_of_find?_eq_some hl
                    have hlid : latest.id = job.id := by
                      have := List.find?_some hl
                      simpa using this
                    have hharv : latest.harvested = 1 :=
                      h latest hmem (hlid.trans hjid)
                    have hskip : (match s.get_job job.id with
                        | some latest => latest.harvested == 1
                        | none => false) = true := by
                      unfold Store.get_job
                      rw [hl]
                      simpa using hharv
                    rw [hskip]
                    simp only [if_pos]
                    exact ⟨h, rfl⟩
                  · cases hskip : (match s.get_job job.id with
                        | some latest => latest.harvested == 1
                        | none => false) with
                    | true =>
                        simp only [if_pos]
                        exact ⟨h, rfl⟩
                    | false =>
                        simp only [Bool.false_eq_true, if_neg, if_false]
                        constructor
                        · apply harvestedAll_update_job _ j job.id _ now (Or.inr rfl)
                          apply harvestedAll_of_jobs_eq _ _ _ (harvest_jobs_eq comfy _ job.id pid fA fF now)
                          exact harvestedAll_update_job s j job.id _ now (Or.inl rfl) h
                        · simp [hjid]
                · have h4f : isDoneSignal e = false := by simpa using h4
                  rw [if_neg (by simp [h4f])]
                  exact ⟨h, rfl⟩

/-- If a step does invoke the harvester for job `j`, then immediately after
the step every row of `j` carries the `harvested` flag (the loop sets it right
after the harvester returns). -/
theorem step_sets_flag_when_harvesting (comfy : ComfyBackend) (fA fF : Nat → String)
    (now : String) (s : Store) (e : WsEvent) (j : String)
    (h : (comfy_ws_step comfy fA fF now s e).harvests.filter (fun p => p.1 = j) ≠ []) :
    HarvestedAll (comfy_ws_step comfy fA fF now s e).store j := by
  unfold comfy_ws_step at h ⊢
  cases hp : e.prompt_id with
  | none => rw [hp] at h; exact absurd rfl h
  | some pid =>
      rw [hp] at h
      dsimp only at h ⊢
      cases hj : s.get_job_by_prompt_id pid with
      | none => rw [hj] at h; exact absurd rfl h
      | some job =>
          rw [hj] at h
          dsimp only at h ⊢
          by_cases h1 : e.mtype = some "execution_start"
          · rw [if_pos h1] at h; exact absurd rfl h
          · rw [if_neg h1] at h ⊢
            by_cases h2 : e.mtype = some "progress"
            · rw [if_pos h2] at h; exact absurd rfl h
            · rw [if_neg h2] at h ⊢
              by_cases h3 : e.mtype = some "execution_error" ∨
                  e.mtype = some "execution_interrupted"
              · rw [if_pos h3] at h; exact absurd rfl h
              · rw [if_neg h3] at h ⊢
                by_cases h4 : isDoneSignal e = true
                · rw [if_pos h4] at h ⊢
                  cases hskip : (match s.get_job job.id with
                      | some latest => latest.harvested == 1
                      | none => false) with
                  | true =>
                      rw [hskip, if_pos rfl] at h
                      exact absurd rfl h
                  | false =>
                      rw [hskip, if_neg Bool.false_ne_true] at h
                      rw [if_neg Bool.false_ne_true]
                      have hjid : job.id = j := by
                        by_contra hne
                        apply h
                        simp [hne]
                      subst hjid
                      exact harvestedAll_after_set _ job.id now
                · rw [if_neg (by simpa using h4)] at h
                  exact absurd rfl h

/-- One loop step performs at most one harvest invocation. -/
theorem step_harvests_len (comfy : ComfyBackend) (fA fF : Nat → String) (now : String)
    (s : Store) (e : WsEvent) :
    (comfy_ws_step comfy fA fF now s e).harvests.length ≤ 1 := by
  unfold comfy_ws_step
  cases e.prompt_id with
  | none => simp
  | some pid =>
      dsimp only
      cases s.get_job_by_prompt_id pid with
      | none => simp
      | some job =>
          dsimp only
          split
          · simp
          · split
            · simp
            · split
              · simp
              · split
                · split
                  · simp
                  · simp
                · simp

/-- Processing `e :: evs` is processing `e`, then `evs` from the resulting
store, with broadcasts and harvest invocations concatenated in order. -/
theorem run_cons (comfy : ComfyBackend) (fA fF : Nat → String) (now : String)
    (s : Store) (e : WsEvent) (evs : List WsEvent) :
    comfy_ws_run comfy fA fF now s (e :: evs) =
      ⟨(comfy_ws_run comfy fA fF now (comfy_ws_step comfy fA fF now s e).store evs).store,
       (comfy_ws_step comfy fA fF now s e).broadcasts ++
         (comfy_ws_run comfy fA fF now
           (comfy_ws_step comfy fA fF now s e).store evs).broadcasts,
       (comfy_ws_step comfy fA fF now s e).harvests ++
         (comfy_ws_run comfy fA fF now
           (comfy_ws_step comfy fA fF now s e).store evs).harvests⟩ := by
  rfl

/-- Over a whole run, once every row of job `j` is harvested it stays so and
no further harvest for `j` is invoked. -/
theorem run_preserves_harvestedAll (comfy : ComfyBackend) (fA fF : Nat → String)
    (now : String) (evs : List WsEvent) :
    ∀ (s : Store) (j : String), HarvestedAll s j →
      HarvestedAll (comfy_ws_run comfy fA fF now s evs).store j ∧
      (comfy_ws_run comfy fA fF now s evs).harvests.filter (fun p => p.1 = j) = [] := by
  induction evs with
  | nil => intro s j h; exact ⟨h, rfl⟩
  | cons e evs ih =>
      intro s j h
      rw [run_cons]
      have hstep := step_preserves_harvestedAll comfy fA fF now s e j h
      have hrest := ih (comfy_ws_step comfy fA fF now s e).store j hstep.1
      exact ⟨hrest.1, by simp [List.filter_append, hstep.2, hrest.2]⟩

/-- The store reached by a concatenated run is reached by running the two
parts in sequence. -/
theorem run_append_store (comfy : ComfyBackend) (fA fF : Nat → String) (now : String)
    (l1 l2 : List WsEvent) :
    ∀ s : Store,
      (comfy_ws_run comfy fA fF now s (l1 ++ l2)).store =
        (comfy_ws_run comfy fA fF now
          (comfy_ws_run comfy fA fF now s l1).store l2).store := by
  induction l1 with
  | nil => intro s; rfl
  | cons e l1 ih =>
      intro s
      rw [List.cons_append, run_cons, run_cons]
      simp [ih]

/-- C2: over any sequence of frames processed by the single-threaded consumer
loop, the harvester is invoked at most once for any given job — duplicate
completion-equivalent events are skipped by the `harvested` re-read guard —
and the `harvested` flag is monotone: once every row of the job carries it
after some prefix, it still carries it after processing any further events
(so the flag transitions from 0 to 1 at most once). -/
theorem C2_harvest_idempotent (comfy : ComfyBackend) (fA fF : Nat → String) (now : String)
    (s : Store) (events : List WsEvent) (j : String) :
    ((comfy_ws_run comfy fA fF now s events).harvests.filter
        (fun p => p.1 = j)).length ≤ 1 ∧
    (∀ pre post : List WsEvent,
      HarvestedAll (comfy_ws_run comfy fA fF now s pre).store j →
      HarvestedAll (comfy_ws_run comfy fA fF now s (pre ++ post)).store j) := by
  constructor
  · induction events generalizing s with
    | nil => simp [comfy_ws_run]
    | cons e evs ih =>
        rw [run_cons]
        simp only [List.filter_append, List.length_append]
        by_cases hne : (comfy_ws_step comfy fA fF now s e).harvests.filter
            (fun p => p.1 = j) = []
        · rw [hne]
          simpa using ih (comfy_ws_step comfy fA fF now s e).store
        · have hflag := step_sets_flag_when_harvesting comfy fA fF now s e j hne
          have hrest := run_preserves_harvestedAll comfy fA fF now evs
            (comfy_ws_step comfy fA fF now s e).store j hflag
          rw [hrest.2]
          have hlen1 : ((comfy_ws_step comfy fA fF now s e).harvests.filter
              (fun p => p.1 = j)).length ≤ 1 :=
            le_trans (List.length_filter_le _ _) (step_harvests_len comfy fA fF now s e)
          simpa using hlen1
  · intro pre post h
    rw [run_append_store]
    exact (run_preserves_harvestedAll comfy fA fF now post
      (comfy_ws_run comfy fA fF now s pre).store j h).1

/-- Witness for C2: two consecutive completion frames for the same
correlation id yield at most one harvest invocation, and the flag set by the
first frame persists. -/
theorem C2_harvest_idempotent_witness :
    ((comfy_ws_run emptyBackend frName frName "t1" storeQueued [evDone, evDone]).harvests.filter
        (fun p => p.1 = "j1")).length ≤ 1 ∧
    HarvestedAll (comfy_ws_run emptyBackend frName frName "t1" storeQueued
      ([evDone] ++ [evDone])).store "j1" := by
  have h := C2_harvest_idempotent emptyBackend frName frName "t1" storeQueued
    [evDone, evDone] "j1"
  refine ⟨h.1, h.2 [evDone] [evDone] ?_⟩
  intro r hr hid
  have hr2 : r ∈ [(⟨"j1", "comfy", "completed", some "p1", "x", "", [], "t0", "t1",
      0, 0, 1, none⟩ : JobRow)] := hr
  rw [List.mem_singleton] at hr2
  subst hr2
  rfl

/-- Characterization of the inner harvest loop: starting from assets
`base ++ ext` where `base` never collides with a fresh id and every `ext`
entry is a correctly-shaped harvest product, the loop appends one
correctly-shaped asset per successfully downloadable image (per-image
failures are skipped without affecting the rest), both to the store and to
the returned list. -/
theorem harvestImages_spec (c : HarvestCtx) (node_id : String) (imgs : List ImageInfo) :
    ∀ (js : List JobRow) (base ext acc : List AssetRow) (k : Nat),
      (∀ k2 a, a ∈ base → a.id ≠ c.freshAssetId k2) →
      (∀ a ∈ ext, a.job_id = c.job_id ∧ a.engine = "comfy" ∧ a.recipe = c.recipe) →
      ∃ created ext2 k2,
        harvestImages c node_id imgs ⟨js, base ++ ext⟩ acc k =
          (⟨js, base ++ ext2⟩, acc ++ created, k2) ∧
        created.length = (imgs.filter (imageOk c.comfy)).length ∧
        (∀ a ∈ created, a.job_id = c.job_id ∧ a.engine = "comfy" ∧ a.recipe = c.recipe) ∧
        (∀ a ∈ ext2, a.job_id = c.job_id ∧ a.engine = "comfy" ∧ a.recipe = c.recipe) := by
  induction imgs with
  | nil =>
      intro js base ext acc k hfresh hext
      exact ⟨[], ext, k, by simp [harvestImages], rfl, by simp, hext⟩
  | cons img rest ih =>
      intro js base ext acc k hfresh hext
      cases hf : img.filename with
      | none =>
          have hok : imageOk c.comfy img = false := by simp [imageOk, hf]
          rcases ih js base ext acc k hfresh hext with ⟨created, ext2, k2, heq, hlen, hcr, hex⟩
          exact ⟨created, ext2, k2, by simpa [harvestImages, hf] using heq,
            by simpa [List.filter_cons, hok] using hlen, hcr, hex⟩
      | some f =>
          by_cases hf0 : f = ""
          · have hok : imageOk c.comfy img = false := by simp [imageOk, hf, hf0]
            rcases ih js base ext acc k hfresh hext with ⟨created, ext2, k2, heq, hlen, hcr, hex⟩
            refine ⟨created, ext2, k2, ?_, by simpa [List.filter_cons, hok] using hlen,
              hcr, hex⟩
            have hstep : harvestImages c node_id (img :: rest) ⟨js, base ++ ext⟩ acc k =
                harvestImages c node_id rest ⟨js, base ++ ext⟩ acc k := by
              simp [harvestImages, hf, hf0]
            rw [hstep, heq]
          · cases hv : c.comfy.view f img.subfolder img.folder_type with
            | none =>
                have hok : imageOk c.comfy img = false := by simp [imageOk, hf, hf0, hv]
                rcases ih js base ext acc k hfresh hext with
                  ⟨created, ext2, k2, heq, hlen, hcr, hex⟩
                refine ⟨created, ext2, k2, ?_, by simpa [List.filter_cons, hok] using hlen,
                  hcr, hex⟩
                have hstep : harvestImages c node_id (img :: rest) ⟨js, base ++ ext⟩ acc k =
                    harvestImages c node_id rest ⟨js, base ++ ext⟩ acc k := by
                  simp [harvestImages, hf, hv]
                rw [hstep, heq]
            | some b =>
                have hok : imageOk c.comfy img = true := by simp [imageOk, hf, hf0, hv]
                have hextP : ∀ a ∈ ext ++
                    [(⟨c.freshAssetId k, c.job_id, "comfy", c.freshFilename k, c.now, 0,
                      c.recipe, metaForImage c.prompt_id node_id f img.subfolder
                        img.folder_type⟩ : AssetRow)],
                    a.job_id = c.job_id ∧ a.engine = "comfy" ∧ a.recipe = c.recipe := by
                  intro a ha
                  rcases List.mem_append.mp ha with ha | ha
                  · exact hext a ha
                  · rw [List.mem_singleton] at ha
                    subst ha
                    exact ⟨rfl, rfl, rfl⟩
                have hfindbase : base.find? (fun a => a.id = c.freshAssetId k) = none := by
                  apply List.find?_eq_none.mpr
                  intro a ha
                  simp [hfresh k a ha]
                have hsome : ((ext ++
                    [(⟨c.freshAssetId k, c.job_id, "comfy", c.freshFilename k, c.now, 0,
                      c.recipe, metaForImage c.prompt_id node_id f img.subfolder
                        img.folder_type⟩ : AssetRow)]).find?
                      (fun a => a.id = c.freshAssetId k)).isSome := by
                  rw [List.find?_isSome]
                  refine ⟨⟨c.freshAssetId k, c.job_id, "comfy", c.freshFilename k, c.now, 0,
                    c.recipe, metaForImage c.prompt_id node_id f img.subfolder
                      img.folder_type⟩, by simp, by simp⟩
                obtain ⟨r, hr⟩ := Option.isSome_iff_exists.mp hsome
                have hrP : r.job_id = c.job_id ∧ r.engine = "comfy" ∧ r.recipe = c.recipe :=
                  hextP r (List.mem_of_find?_eq_some hr)
                have hget : Store.get_asset
                    ⟨js, (base ++ ext) ++
                      [(⟨c.freshAssetId k, c.job_id, "comfy", c.freshFilename k, c.now, 0,
                        c.recipe, metaForImage c.prompt_id node_id f img.subfolder
                          img.folder_type⟩ : AssetRow)]⟩ (c.freshAssetId k) = some r := by
                  unfold Store.get_asset
                  rw [List.append_assoc, List.find?_append, hfindbase]
                  simpa using hr
                have hstep : harvestImages c node_id (img :: rest) ⟨js, base ++ ext⟩ acc k =
                    harvestImages c node_id rest
                      ⟨js, (base ++ ext) ++
                        [(⟨c.freshAssetId k, c.job_id, "comfy", c.freshFilename k, c.now, 0,
                          c.recipe, metaForImage c.prompt_id node_id f img.subfolder
                            img.folder_type⟩ : AssetRow)]⟩ (acc ++ [r]) (k + 1) := by
                  simp only [harvestImages, hf, hv]
                  rw [if_neg hf0]
                  simp only [Store.create_asset, hget]
                rcases ih js base
                  (ext ++ [(⟨c.freshAssetId k, c.job_id, "comfy", c.freshFilename k, c.now, 0,
                    c.recipe, metaForImage c.prompt_id node_id f img.subfolder
                      img.folder_type⟩ : AssetRow)])
                  (acc ++ [r]) (k + 1) hfresh hextP with
                  ⟨created2, ext2, k2, heq, hlen, hcr, hex⟩
                refine ⟨r :: created2, ext2, k2, ?_, ?_, ?_, hex⟩
                · rw [hstep]
                  rw [← List.append_assoc] at heq
                  simpa using heq
                · simpa [List.filter_cons, hok] using hlen
                · intro a ha
                  rcases List.mem_cons.mp ha with ha | ha
                  · subst ha
                    exact hrP
                  · exact hcr a ha

/-- Characterization of the outer harvest loop over the manifest's nodes. -/
theorem harvestNodes_spec (c : HarvestCtx) (outputs : List (String × Option (List ImageInfo))) :
    ∀ (js : List JobRow) (base ext acc : List AssetRow) (k : Nat),
      (∀ k2 a, a ∈ base → a.id ≠ c.freshAssetId k2) →
      (∀ a ∈ ext, a.job_id = c.job_id ∧ a.engine = "comfy" ∧ a.recipe = c.recipe) →
      ∃ created ext2 k2,
        harvestNodes c outputs ⟨js, base ++ ext⟩ acc k =
          (⟨js, base ++ ext2⟩, acc ++ created, k2) ∧
        created.length = ((declaredImages outputs).filter (imageOk c.comfy)).length ∧
        (∀ a ∈ created, a.job_id = c.job_id ∧ a.engine = "comfy" ∧ a.recipe = c.recipe) ∧
        (∀ a ∈ ext2, a.job_id = c.job_id ∧ a.engine = "comfy" ∧ a.recipe = c.recipe) := by
  induction outputs with
  | nil =>
      intro js base ext acc k hfresh hext
      exact ⟨[], ext, k, by simp [harvestNodes], rfl, by simp, hext⟩
  | cons node rest ih =>
      intro js base ext acc k hfresh hext
      rcases harvestImages_spec c node.1 (node.2.getD []) js base ext acc k hfresh hext with
        ⟨cr1, ext1, k1, heq1, hlen1, hcr1, hex1⟩
      rcases ih js base ext1 (acc ++ cr1) k1 hfresh hex1 with
        ⟨cr2, ext2, k2, heq2, hlen2, hcr2, hex2⟩
      refine ⟨cr1 ++ cr2, ext2, k2, ?_, ?_, ?_, hex2⟩
      · have hstep : harvestNodes c (node :: rest) ⟨js, base ++ ext⟩ acc k =
            harvestNodes c rest ⟨js, base ++ ext1⟩ (acc ++ cr1) k1 := by
          cases node with
          | mk node_id node_output =>
              simp only [harvestNodes, heq1]
        rw [hstep, heq2, List.append_assoc]
      · have hdecl : declaredImages (node :: rest) =
            node.2.getD [] ++ declaredImages rest := rfl
        rw [hdecl, List.filter_append, List.length_append, List.length_append,
          hlen1, hlen2]
      · intro a ha
        rcases List.mem_append.mp ha with ha | ha
        · exact hcr1 a ha
        · exact hcr2 a ha

/-- C6: the harvest of a job returns the empty list without raising when the
upstream manifest has no entry for the correlation id or the job row is
unknown; otherwise it creates exactly one asset per successfully downloaded
output — per-output download failures are swallowed and do not prevent the
remaining outputs from being processed — and every created asset carries the
recipe snapshot copied from the job's current prompt, negative prompt and
parameter map.  (The embedding is a total function: no code path raises.) -/
theorem C6_harvest_partial_failure (comfy : ComfyBackend) (s : Store)
    (job_id prompt_id : String) (fA fF : Nat → String) (now : String) :
    (comfy.history prompt_id = none →
      harvest_assets_for_prompt comfy s job_id prompt_id fA fF now = (s, [])) ∧
    (s.get_job job_id = none →
      harvest_assets_for_prompt comfy s job_id prompt_id fA fF now = (s, [])) ∧
    (∀ outputs job,
      comfy.history prompt_id = some outputs →
      s.get_job job_id = some job →
      (∀ k a, a ∈ s.assets → a.id ≠ fA k) →
      (harvest_assets_for_prompt comfy s job_id prompt_id fA fF now).2.length =
          ((declaredImages outputs).filter (imageOk comfy)).length ∧
      ∀ a ∈ (harvest_assets_for_prompt comfy s job_id prompt_id fA fF now).2,
        a.job_id = job_id ∧ a.engine = "comfy" ∧
        a.recipe = ⟨job.engine, job.prompt, job.negative_prompt, job.params⟩) := by
  refine ⟨?_, ?_, ?_⟩
  · intro hh
    unfold harvest_assets_for_prompt
    rw [hh]
  · intro hj
    unfold harvest_assets_for_prompt
    cases hh : comfy.history prompt_id with
    | none => rfl
    | some outputs => rw [hj]
  · intro outputs job hh hj hfresh
    obtain ⟨js, as⟩ := s
    have hns := harvestNodes_spec
      ⟨comfy, job_id, prompt_id, ⟨job.engine, job.prompt, job.negative_prompt, job.params⟩,
        fA, fF, now⟩ outputs js as [] [] 0 hfresh (by simp)
    rcases hns with ⟨created, ext2, k2, heq, hlen, hcr, hex⟩
    simp only [List.append_nil, List.nil_append] at heq
    have hharv : harvest_assets_for_prompt comfy ⟨js, as⟩ job_id prompt_id fA fF now =
        ((⟨js, as ++ ext2⟩ : Store), created) := by
      unfold harvest_assets_for_prompt
      rw [hh, hj]
      dsimp only
      rw [heq]
    rw [hharv]
    exact ⟨hlen, hcr⟩

/-- Witness for C6: a manifest declaring two outputs of which one download
fails yields exactly one created asset, carrying the job's recipe
snapshot. -/
theorem C6_harvest_partial_failure_witness :
    (harvest_assets_for_prompt backendTwoImages storeQueued "j1" "p1"
        frName frName "t1").2.length = 1 ∧
    ∀ a ∈ (harvest_assets_for_prompt backendTwoImages storeQueued "j1" "p1"
        frName frName "t1").2,
      a.recipe = ⟨"comfy", "x", "", []⟩ := by
  have h := (C6_harvest_partial_failure backendTwoImages storeQueued "j1" "p1" frName frName
      "t1").2.2 [("9", some [⟨some "a.png", "", "output"⟩, ⟨some "b.png", "", "output"⟩])]
    jobQueued rfl rfl (by intro k a ha; exact absurd ha (List.not_mem_nil a))
  exact ⟨h.1.trans rfl, fun a ha => (h.2 a ha).2.2⟩

/-- Reading back a freshly inserted job row (`db.get_job` after
`db.create_job`) returns exactly that row when the id was previously
unused. -/
theorem get_job_after_create (s : Store) (job_id engine status prompt negp : String)
    (params : List (String × Val)) (pid : Option String) (now : String)
    (h : s.get_job job_id = none) :
    (s.create_job job_id engine status prompt negp params pid now).get_job job_id =
      some ⟨job_id, engine, status, pid, prompt, negp, params, now, now, 0, 0, 0, none⟩ := by
  unfold Store.get_job at h ⊢
  unfold Store.create_job
  rw [List.find?_append, h]
  simp

/-- C7 counterexample: a request with the valid prompt `x` but a workflow id
absent from the registry is rejected with 404 and no job row is persisted —
refuting the claim that a valid prompt alone guarantees a persisted `queued`
row. -/
theorem C7_counterexample_unknown_workflow :
    validate_prompt reqPromptX = true ∧
    api_create_job [] "" [] storeEmpty reqPromptX "j1" "t0" =
      Except.error (ApiErr.httpErr 404 "Workflow not found: flux2_klein_distilled") :=
  ⟨rfl, rfl⟩

/-- C7 amended: an empty or missing prompt is rejected by validation with no
job row created; and whenever `create_job` succeeds (in particular the
requested workflow id resolved in the registry — an unknown id is rejected
with 404 before any row is written), exactly one job row is persisted in
status `queued` with no correlation id, the `job_created` broadcast carrying
that row is emitted before the handler returns, and the returned job has
status `queued`. -/
theorem C7_amended_create_job (registry : List (String × Workflow)) (ck : String)
    (cached : List String) (s : Store) (r : JobCreateReq) (job_id now : String)
    (hfresh : s.get_job job_id = none) :
    (validate_prompt r = false →
      api_create_job registry ck cached s r job_id now =
        Except.error (ApiErr.validationError "prompt is required")) ∧
    (∀ res, api_create_job registry ck cached s r job_id now = Except.ok res →
      ∃ prompt negp params,
        prompt ≠ "" ∧
        res.store.jobs = s.jobs ++
          [⟨job_id, "comfy", "queued", none, prompt, negp, params, now, now, 0, 0, 0, none⟩] ∧
        res.broadcasts = [AppEvent.job_created (some
          ⟨job_id, "comfy", "queued", none, prompt, negp, params, now, now, 0, 0, 0, none⟩)] ∧
        res.response = some
          ⟨job_id, "comfy", "queued", none, prompt, negp, params, now, now, 0, 0, 0, none⟩ ∧
        res.response.map JobRow.status = some "queued") := by
  constructor
  · intro hval
    simp [api_create_job, hval]
  · intro res hres
    unfold api_create_job at hres
    split at hres
    · exact absurd hres (by simp)
    · dsimp only at hres
      split at hres
      · exact absurd hres (by simp)
      · rename_i hval hprompt
        split at hres
        · exact absurd hres (by simp)
        · rename_i wf hwf
          rw [Except.ok.injEq] at hres
          subst hres
          refine ⟨_, _, _, hprompt, rfl, ?_, ?_, ?_⟩
          · dsimp only
            rw [get_job_after_create s job_id "comfy" "queued" _ _ _ none now hfresh]
          · dsimp only
            rw [get_job_after_create s job_id "comfy" "queued" _ _ _ none now hfresh]
          · dsimp only
            rw [get_job_after_create s job_id "comfy" "queued" _ _ _ none now hfresh]
            rfl

/-- Witness for the amended C7: a request with prompt `x` against a registry
containing the default workflow persists one queued row, broadcasts it, and
returns it. -/
theorem C7_amended_create_job_witness :
    ∃ prompt negp params,
      prompt ≠ "" ∧
      createResW.store.jobs = storeEmpty.jobs ++
        [⟨"j1", "comfy", "queued", none, prompt, negp, params, "t0", "t0", 0, 0, 0, none⟩] ∧
      createResW.broadcasts = [AppEvent.job_created (some
        ⟨"j1", "comfy", "queued", none, prompt, negp, params, "t0", "t0", 0, 0, 0, none⟩)] ∧
      createResW.response = some
        ⟨"j1", "comfy", "queued", none, prompt, negp, params, "t0", "t0", 0, 0, 0, none⟩ ∧
      createResW.response.map JobRow.status = some "queued" :=
  (C7_amended_create_job registryW "" [] storeEmpty reqPromptX "j1" "t0" rfl).2
    createResW rfl

end Cockpit
